import Mathlib

/-!
Shallow embedding of the chain_cred-Dapp core:
- `contracts/FileRegistry.sol` (the on-chain registry ledger)
- `src/ipfs/ipfsClient.js` (upload / multi-gateway download orchestration)
- `src/blockchain/contract.js` (registry client read wrappers)

Solidity machine integers that matter here are array indices and lengths,
which in practice never approach 2^256; they are modelled as `Nat`.
Solidity `mapping`s are total functions returning the zero value for
unset keys, exactly as the EVM storage model does.
-/

namespace ChainCred

/-- Ethereum addresses, abstracted to naturals; `0` is the zero address
(`address(0)`), the sentinel for an unset `mapping(... => address)` entry. -/
abbrev Addr := Nat

/-- UTF-8 byte width of one character, matching how Solidity
`bytes(string).length` counts a string handed over ABI-encoded as UTF-8. -/
def charBytes (c : Char) : Nat :=
  if c.toNat < 0x80 then 1
  else if c.toNat < 0x800 then 2
  else if c.toNat < 0x10000 then 3
  else 4

/-- `bytes(s).length` of a Solidity `string memory s`. -/
def byteLen (s : String) : Nat := (s.toList.map charBytes).sum

namespace FileRegistry

/-- `struct File { string cid; string name; uint256 timestamp; }` -/
structure File where
  cid : String
  name : String
  timestamp : Nat
deriving DecidableEq, Repr

/-- The contract's storage:
`mapping(address => string) userIds`,
`mapping(string => File[]) userFiles`,
`mapping(string => address) userIdToWallet`. -/
structure RegistryState where
  userIds : Addr → String
  userFiles : String → List File
  userIdToWallet : String → Addr

/-- Storage right after deployment: every mapping entry is its zero value. -/
def initialState : RegistryState :=
  { userIds := fun _ => ""
    userFiles := fun _ => []
    userIdToWallet := fun _ => 0 }

/-- The distinct `require` failures of the contract, one per revert message:
`emptyUserId` = "User ID cannot be empty", `userIdTooLong` = "User ID too long
(max 50 chars)" (together the `validUserId` modifier), `alreadyRegistered` =
"Already registered: ...", `userIdTaken` = "User ID taken: ...",
`notAuthorized` = the `onlyOwner` modifier message, `invalidIndex` =
"Invalid index: File does not exist", `emptyCid` / `emptyName` =
the `uploadFile` argument checks. -/
inductive SolError where
  | emptyUserId
  | userIdTooLong
  | alreadyRegistered
  | userIdTaken
  | notAuthorized
  | invalidIndex
  | emptyCid
  | emptyName
deriving DecidableEq, Repr

/-- `registerUser(string memory userId) public validUserId(userId)`.
The `validUserId` modifier checks run first (empty, then too long), then the
body checks (already registered, then taken), then both mapping writes. -/
def registerUser (s : RegistryState) (sender : Addr) (userId : String) :
    Except SolError RegistryState :=
  if byteLen userId = 0 then .error .emptyUserId
  else if 50 < byteLen userId then .error .userIdTooLong
  else if byteLen (s.userIds sender) ≠ 0 then .error .alreadyRegistered
  else if s.userIdToWallet userId ≠ 0 then .error .userIdTaken
  else .ok
    { s with
      userIds := fun a => if a = sender then userId else s.userIds a
      userIdToWallet := fun u => if u = userId then sender else s.userIdToWallet u }

/-- `uploadFile(userId, cid, name) public onlyOwner(userId)`.
The `onlyOwner` modifier compares `keccak256(bytes(userIds[msg.sender]))`
with `keccak256(bytes(userId))`; keccak256 is collision-free on the inputs
that can occur, so the comparison is modelled as string equality.
`ts` is `block.timestamp`, supplied by the host chain. -/
def uploadFile (s : RegistryState) (sender : Addr) (userId cid name : String)
    (ts : Nat) : Except SolError RegistryState :=
  if s.userIds sender ≠ userId then .error .notAuthorized
  else if byteLen cid = 0 then .error .emptyCid
  else if byteLen name = 0 then .error .emptyName
  else .ok
    { s with
      userFiles := fun u =>
        if u = userId then s.userFiles userId ++ [⟨cid, name, ts⟩]
        else s.userFiles u }

/-- Placeholder for an out-of-bounds `File[]` read; never reached because
`deleteFile` requires `index < files.length` first. -/
def dummyFile : File := ⟨"", "", 0⟩

/-- `deleteFile(userId, index) public onlyOwner(userId)`:
`files[index] = files[files.length - 1]; files.pop();` (swap-and-pop). -/
def deleteFile (s : RegistryState) (sender : Addr) (userId : String)
    (index : Nat) : Except SolError RegistryState :=
  if s.userIds sender ≠ userId then .error .notAuthorized
  else
    let files := s.userFiles userId
    if index < files.length then
      .ok
        { s with
          userFiles := fun u =>
            if u = userId then
              (files.set index (files.getD (files.length - 1) dummyFile)).dropLast
            else s.userFiles u }
    else .error .invalidIndex

/-- `getFiles(userId) public view` — a mapping read, total, never reverts. -/
def getFiles (s : RegistryState) (userId : String) : List File :=
  s.userFiles userId

/-- `getFileCount(userId) public view`. -/
def getFileCount (s : RegistryState) (userId : String) : Nat :=
  (s.userFiles userId).length

/-- `getUserId(wallet) public view` — empty string if not registered. -/
def getUserId (s : RegistryState) (wallet : Addr) : String :=
  s.userIds wallet

/-- `getWalletByUserId(userId) public view` — zero address if not found. -/
def getWalletByUserId (s : RegistryState) (userId : String) : Addr :=
  s.userIdToWallet userId

/-- `isUserIdAvailable(userId) public view`. -/
def isUserIdAvailable (s : RegistryState) (userId : String) : Bool :=
  s.userIdToWallet userId = 0

/-- `isWalletRegistered(wallet) public view`. -/
def isWalletRegistered (s : RegistryState) (wallet : Addr) : Bool :=
  byteLen (s.userIds wallet) ≠ 0

/-- Host-ledger transaction semantics: a reverted call leaves storage
untouched (`require` aborts the whole transaction). -/
def applyRegister (s : RegistryState) (sender : Addr) (userId : String) :
    RegistryState :=
  match registerUser s sender userId with
  | .ok s' => s'
  | .error _ => s

/-- Revert-or-commit application of `uploadFile`. -/
def applyUpload (s : RegistryState) (sender : Addr) (userId cid name : String)
    (ts : Nat) : RegistryState :=
  match uploadFile s sender userId cid name ts with
  | .ok s' => s'
  | .error _ => s

/-- Revert-or-commit application of `deleteFile`. -/
def applyDelete (s : RegistryState) (sender : Addr) (userId : String)
    (index : Nat) : RegistryState :=
  match deleteFile s sender userId index with
  | .ok s' => s'
  | .error _ => s

/-- Ledger states reachable from deployment by successful transactions.
Failed transactions revert and do not change state, so they induce no step.
On the EVM `msg.sender` of an executed call is never the zero address
(it is derived from a signature or a deployed contract account), hence the
`sender ≠ 0` side condition on every step. -/
inductive Reachable : RegistryState → Prop where
  | init : Reachable initialState
  | register {s s' : RegistryState} {sender : Addr} {userId : String} :
      Reachable s → sender ≠ 0 → registerUser s sender userId = .ok s' →
      Reachable s'
  | upload {s s' : RegistryState} {sender : Addr} {userId cid name : String}
      {ts : Nat} :
      Reachable s → sender ≠ 0 → uploadFile s sender userId cid name ts = .ok s' →
      Reachable s'
  | delete {s s' : RegistryState} {sender : Addr} {userId : String} {index : Nat} :
      Reachable s → sender ≠ 0 → deleteFile s sender userId index = .ok s' →
      Reachable s'

/-- The registry invariant: the two identity/handle mappings agree as a
partial bijection, the zero address and the empty handle stay unbound,
and unregistered (nonempty) handles have no files. -/
structure RegInv (s : RegistryState) : Prop where
  zeroAddr : s.userIds 0 = ""
  emptyHandle : s.userIdToWallet "" = 0
  forward : ∀ w, s.userIds w ≠ "" → s.userIdToWallet (s.userIds w) = w
  backward : ∀ h, s.userIdToWallet h ≠ 0 → s.userIds (s.userIdToWallet h) = h
  filesEmpty : ∀ h, h ≠ "" → s.userIdToWallet h = 0 → s.userFiles h = []

end FileRegistry

/-- Substring matching over character lists (`needle` starts `hay`),
the building block of the JS `String.prototype.includes` model. -/
def listLeads : List Char → List Char → Bool
  | [], _ => true
  | _ :: _, [] => false
  | a :: as, b :: bs => a == b && listLeads as bs

/-- `hay` has `needle` somewhere inside (JS `hay.includes(needle)`). -/
def listIncl : List Char → List Char → Bool
  | [], needle => needle.isEmpty
  | c :: t, needle => listLeads needle (c :: t) || listIncl t needle

/-- JS `hay.includes(needle)`. -/
def strIncludes (hay needle : String) : Bool :=
  listIncl hay.toList needle.toList

/-- The JS values that can reach `downloadFromIpfs`/`isUserRegistered`
as loosely-typed arguments: `null`, `undefined`, or a string. -/
inductive JSVal where
  | null
  | undefined
  | str (s : String)
deriving DecidableEq, Repr

/-- JS truthiness of such a value (`null`, `undefined` and `""` are falsy). -/
def JSVal.isTruthy : JSVal → Bool
  | .null => false
  | .undefined => false
  | .str s => s ≠ ""

/-- JS `v || d` followed by use as a string: the value itself when truthy,
the (string) default otherwise. -/
def jsOr (v : JSVal) (d : String) : String :=
  match v with
  | .str s => if s = "" then d else s
  | _ => d

namespace IpfsClient

/-- `FALLBACK_GATEWAYS` from `src/ipfs/ipfsClient.js`. -/
def FALLBACK_GATEWAYS : List String :=
  ["https://ipfs.io/ipfs",
   "https://gateway.pinata.cloud/ipfs",
   "https://cloudflare-ipfs.com/ipfs",
   "https://dweb.link/ipfs",
   "https://w3s.link/ipfs"]

/-- `GATEWAY_TIMEOUT = 15000` (ms), the per-attempt fetch bound. -/
def GATEWAY_TIMEOUT : Nat := 15000

/-- The configuration fields of `src/config/appConfig.js` consumed by the
IPFS client. JS reads `config.maxFileSize && ...`, so `maxFileSize = 0`
(falsy) disables the size check; `allowedFileTypes` guards with
`.length > 0`, so `[]` disables the type check. -/
structure Config where
  ipfsGateway : String
  maxFileSize : Nat
  allowedFileTypes : List String
  useDemoMode : Bool

/-- `.replace(/\/+$/, '')` — drop every trailing slash. -/
def stripTrailingSlashes (s : String) : String :=
  String.mk (s.toList.reverse.dropWhile (· == '/')).reverse

/-- `s` ends with `suffix` (JS `String.prototype.endsWith`). -/
def strEnds (s suffix : String) : Bool :=
  listLeads suffix.toList.reverse s.toList.reverse

/-- Drop the final `n` characters of `s`. -/
def dropTail (s : String) (n : Nat) : String :=
  String.mk (s.toList.take (s.toList.length - n))

/-- `.replace(/\/ipfs\/?$/, '')` — drop one trailing `/ipfs` or `/ipfs/`
(the regex greedily takes the trailing slash when present). -/
def stripIpfsSuffix (s : String) : String :=
  if strEnds s "/ipfs/" then dropTail s 6
  else if strEnds s "/ipfs" then dropTail s 5
  else s

/-- `(config.ipfsGateway || '').replace(/\/+$/, '').replace(/\/ipfs\/?$/, '') + '/ipfs'`. -/
def primaryGateway (cfg : Config) : String :=
  stripIpfsSuffix (stripTrailingSlashes cfg.ipfsGateway) ++ "/ipfs"

/-- `[primaryGateway, ...FALLBACK_GATEWAYS.filter(g => g !== primaryGateway)]`. -/
def gatewayCandidates (cfg : Config) : List String :=
  primaryGateway cfg :: FALLBACK_GATEWAYS.filter (fun g => g ≠ primaryGateway cfg)

/-- Characters `encodeURIComponent` leaves as-is:
`A-Z a-z 0-9 - _ . ! ~ * ' ( )`. -/
def isUnreserved (c : Char) : Bool :=
  c.isAlphanum ||
    c ∈ ['-', '_', '.', '!', '~', '*', Char.ofNat 39, Char.ofNat 40, Char.ofNat 41]

/-- Uppercase hexadecimal digit, as `encodeURIComponent` emits. -/
def hexDigit (n : Nat) : Char :=
  if n < 10 then Char.ofNat (48 + n) else Char.ofNat (55 + n)

/-- UTF-8 byte sequence of one character. -/
def utf8Bytes (c : Char) : List Nat :=
  let n := c.toNat
  if n < 0x80 then [n]
  else if n < 0x800 then [0xC0 + n / 0x40, 0x80 + n % 0x40]
  else if n < 0x10000 then
    [0xE0 + n / 0x1000, 0x80 + n / 0x40 % 0x40, 0x80 + n % 0x40]
  else
    [0xF0 + n / 0x40000, 0x80 + n / 0x1000 % 0x40, 0x80 + n / 0x40 % 0x40,
     0x80 + n % 0x40]

/-- `%HH` escape of one byte. -/
def percentByte (b : Nat) : List Char :=
  ['%', hexDigit (b / 16), hexDigit (b % 16)]

/-- JS `encodeURIComponent`: unreserved characters pass through, everything
else is percent-encoded bytewise over its UTF-8 form. -/
def encodeURIComponent (s : String) : String :=
  String.mk
    ((s.toList.map fun c =>
        if isUnreserved c then [c] else ((utf8Bytes c).map percentByte).flatten).flatten)

/-- Outcome of one `fetchWithTimeout` attempt against one gateway URL:
either an HTTP-success (2xx) response whose body was read, or a failure
(timeout abort, transport error, or a non-2xx status turned into a thrown
`HTTP <status>` error) carrying the thrown message. -/
inductive FetchOutcome where
  | success (body : List Nat)
  | failure (msg : String)
deriving DecidableEq, Repr

/-- True when the attempt did not produce an HTTP-success response. -/
def FetchOutcome.isFail : FetchOutcome → Bool
  | .success _ => false
  | .failure _ => true

/-- The network, as `downloadFromIpfs` observes it: each (URL, timeout-ms)
fetch yields one outcome. The code always passes `GATEWAY_TIMEOUT`. -/
abbrev FetchOracle := String → Nat → FetchOutcome

/-- Result of a whole `downloadFromIpfs` call: the saved file
(`link.download = fileName || ''` plus the response bytes), or the
rejection after all gateways failed. -/
inductive DownloadResult where
  | saved (fileName : String) (body : List Nat)
  | failed (msg : String)
deriving DecidableEq, Repr

/-- True when the call rejected. -/
def DownloadResult.isFailed : DownloadResult → Bool
  | .saved _ _ => false
  | .failed _ => true

/-- A `downloadFromIpfs` run: its result plus the fetch attempts it issued,
in order, each with the timeout it was bounded by. -/
structure DownloadRun where
  result : DownloadResult
  attempts : List (String × Nat)
deriving DecidableEq, Repr

/-- `lastError?.message || 'Unknown'` in the aggregate rejection. -/
def lastErrText : Option String → String
  | none => "Unknown"
  | some m => if m = "" then "Unknown" else m

/-- Message of the aggregate error thrown after every gateway failed. -/
def aggregateMsg (lastErr : Option String) : String :=
  "Failed to download from all gateways. Last error: " ++ lastErrText lastErr

/-- The `for (const gateway of gateways)` loop of `downloadFromIpfs`:
try each URL in order with the fixed timeout; return on the first success;
remember the last error; throw the aggregate error when the list runs out. -/
def tryGateways (fetch : FetchOracle) (saveName : String) :
    List String → Option String → List (String × Nat) → DownloadRun
  | [], lastErr, tried => ⟨.failed (aggregateMsg lastErr), tried⟩
  | u :: rest, _lastErr, tried =>
    match fetch u GATEWAY_TIMEOUT with
    | .success body => ⟨.saved saveName body, tried ++ [(u, GATEWAY_TIMEOUT)]⟩
    | .failure msg => tryGateways fetch saveName rest (some msg) (tried ++ [(u, GATEWAY_TIMEOUT)])

/-- `?filename=${encodeURIComponent(String(fileName))}` when `fileName` is
truthy, else the empty string. -/
def fileParamOf (fileName : JSVal) : String :=
  if fileName.isTruthy then "?filename=" ++ encodeURIComponent (jsOr fileName "")
  else ""

/-- `encodeURIComponent(String(cid || ''))`: a falsy `cid` (null, undefined,
empty string) collapses to the empty string before encoding. -/
def safeCidOf (cid : JSVal) : String :=
  encodeURIComponent (jsOr cid "")

/-- The resource URLs the loop builds, one per gateway candidate, in order:
`` `${gateway}/${safeCid}${fileParam}` ``. -/
def urlsOf (cfg : Config) (cid fileName : JSVal) : List String :=
  (gatewayCandidates cfg).map
    (fun g => g ++ "/" ++ safeCidOf cid ++ fileParamOf fileName)

/-- `downloadFromIpfs(cid, fileName)` over an explicit fetch oracle. -/
def downloadFromIpfs (cfg : Config) (cid fileName : JSVal)
    (fetch : FetchOracle) : DownloadRun :=
  tryGateways fetch (jsOr fileName "") (urlsOf cfg cid fileName) none []

/-- A browser `File` as `uploadToIpfs` reads it: declared byte size and
declared MIME type (`""` when the browser reports none). -/
structure JFile where
  size : Nat
  type : String
deriving DecidableEq, Repr

/-- What one pass at the non-demo upload path (create client + `client.add`)
yields: the CID, or a thrown error message. -/
inductive NetResult where
  | ok (cid : String)
  | err (msg : String)
deriving DecidableEq, Repr

/-- The errors thrown inside the `try` block of `uploadToIpfs`, before the
`catch` rewrites them:
`sizeErr` = "File size exceeds maximum allowed size of <N>MB",
`typeErr t` = "File type <t> is not allowed",
`netErr m` = whatever the IPFS client / fetch machinery threw. -/
inductive RawErr where
  | sizeErr
  | typeErr (t : String)
  | netErr (msg : String)
deriving DecidableEq, Repr

/-- `error.message.includes('ERR_CONNECTION_REFUSED') || error.message.includes('fetch')`
evaluated on each raw error's message text.
For `sizeErr` the message is fixed text plus a JS-rendered number
(digits, sign, dot, exponent marker), which never contains either needle.
For `typeErr t` the fixed parts "File type " / " is not allowed" contain
neither needle, and neither needle (both space-free, and the fixed text
ends in a space or starts mid-word mismatching) can straddle a boundary,
so the check reduces to searching the declared type `t` itself. -/
def RawErr.hasConnHint : RawErr → Bool
  | .sizeErr => false
  | .typeErr t => strIncludes t "ERR_CONNECTION_REFUSED" || strIncludes t "fetch"
  | .netErr m => strIncludes m "ERR_CONNECTION_REFUSED" || strIncludes m "fetch"

/-- What `uploadToIpfs` ultimately throws or returns:
the CID; the rewritten "Cannot connect to IPFS. Please either: ..." error
(when the caught message carried a connection hint); or the generic
"Failed to upload file to IPFS: <message>" wrapper around the raw error. -/
inductive UploadOutcome where
  | okCid (cid : String)
  | errConnect
  | errWrapped (inner : RawErr)
deriving DecidableEq, Repr

/-- An `uploadToIpfs` run: its outcome and how many network interactions
(client creation + `client.add` passes) it attempted. -/
structure UploadRun where
  outcome : UploadOutcome
  netAttempts : Nat
deriving DecidableEq, Repr

/-- Network attempts made by the time a raw error is thrown: the two
validation throws happen before any client/network code runs. -/
def RawErr.attempts : RawErr → Nat
  | .sizeErr => 0
  | .typeErr _ => 0
  | .netErr _ => 1

/-- `uploadToIpfs(file)` over an explicit network oracle. `demoCid` stands
for the pseudorandom CID `generateDemoCid` fabricates in demo mode.
Order inside the `try` block, exactly as in the source: size check, type
check (with `file.type || 'application/octet-stream'`), demo-mode branch,
then the IPFS client interaction. The `catch` block then rewrites any
thrown error whose message carries a connection hint. -/
def uploadToIpfs (cfg : Config) (file : JFile) (net : NetResult)
    (demoCid : String) : UploadRun :=
  let inner : Except RawErr (String × Nat) :=
    if cfg.maxFileSize ≠ 0 ∧ cfg.maxFileSize < file.size then .error .sizeErr
    else
      let fileType := if file.type = "" then "application/octet-stream" else file.type
      if cfg.allowedFileTypes.length > 0 ∧ fileType ∉ cfg.allowedFileTypes then
        .error (.typeErr fileType)
      else if cfg.useDemoMode then .ok (demoCid, 0)
      else
        match net with
        | .ok cid => .ok (cid, 1)
        | .err m => .error (.netErr m)
  match inner with
  | .ok (cid, n) => ⟨.okCid cid, n⟩
  | .error e =>
    if e.hasConnHint then ⟨.errConnect, e.attempts⟩
    else ⟨.errWrapped e, e.attempts⟩

/-- The shipped `src/config/appConfig.js` values consumed by the IPFS
client: gateway `https://ipfs.io/ipfs/`, `maxFileSize: 10 * 1024 * 1024`,
`allowedFileTypes: []`, `useDemoMode: false`. -/
def appConfig : Config :=
  { ipfsGateway := "https://ipfs.io/ipfs/"
    maxFileSize := 10485760
    allowedFileTypes := []
    useDemoMode := false }

/-- Test network for the short-circuit witness: the first two gateway URLs
fail, the third succeeds, the rest would succeed distinguishably. -/
def thirdOkOracle : FetchOracle := fun u _ =>
  if u = "https://cloudflare-ipfs.com/ipfs/QmTest?filename=file.txt" then
    .success [7, 7]
  else .failure "HTTP 504: Gateway Timeout"

/-- Test network for the total-failure witness: every fetch fails. -/
def allFailOracle : FetchOracle := fun _ _ =>
  .failure "HTTP 500: Internal Server Error"

end IpfsClient

namespace ContractJs

/-- The outcome `isUserRegistered` observes from `getUserId(walletAddress)`
(`src/blockchain/contract.js`): the resolved handle string, or a thrown
error message. -/
abbrev LookupResult := Except String String

/-- `isUserRegistered(walletAddress)`:
`return userId && userId.length > 0` inside a `try`, `return false` in the
`catch`. The JS expression evaluates to the falsy `userId` itself when the
string is empty; modelled as the truthiness of the returned value. -/
def isUserRegistered (r : LookupResult) : Bool :=
  match r with
  | .ok userId => (userId != "") && decide (0 < userId.length)
  | .error _ => false

end ContractJs

/-- Example ledger state: wallet `1` registered as `"alice"` and uploaded
three files, so `"alice"` holds `[F0, F1, F2]` at indices 0, 1, 2. -/
def aliceThree : FileRegistry.RegistryState :=
  FileRegistry.applyUpload
    (FileRegistry.applyUpload
      (FileRegistry.applyUpload
        (FileRegistry.applyRegister FileRegistry.initialState 1 "alice")
        1 "alice" "c0" "f0" 10)
      1 "alice" "c1" "f1" 11)
    1 "alice" "c2" "f2" 12

/-- Example ledger state: wallet `1` registered as `"alice"` with one file. -/
def aliceOne : FileRegistry.RegistryState :=
  FileRegistry.applyUpload
    (FileRegistry.applyRegister FileRegistry.initialState 1 "alice")
    1 "alice" "c0" "f0" 10

/-- A 50-character ASCII handle (the longest the contract accepts). -/
def fiftyChars : String := "aaaaaaaaaaaaaaaaaaaaaaaaaaaaaaaaaaaaaaaaaaaaaaaaaa"

/-- A 51-character ASCII handle (one byte past the limit). -/
def fiftyOneChars : String := "aaaaaaaaaaaaaaaaaaaaaaaaaaaaaaaaaaaaaaaaaaaaaaaaaaa"

section Lemmas

open FileRegistry

theorem charBytes_pos (c : Char) : 0 < charBytes c := by
  unfold charBytes
  split
  · exact Nat.one_pos
  split
  · exact Nat.zero_lt_two
  split
  · exact Nat.zero_lt_succ 2
  · exact Nat.zero_lt_succ 3

theorem byteLen_eq_zero {s : String} : byteLen s = 0 ↔ s = "" := by
  unfold byteLen
  rw [List.sum_eq_zero_iff]
  constructor
  · intro h
    cases s with
    | mk data =>
      cases data with
      | nil => rfl
      | cons c t =>
        exact absurd (h (charBytes c) (by simp [String.toList]))
          (Nat.ne_of_gt (charBytes_pos c))
  · intro h
    subst h
    intro x hx
    simp [String.toList] at hx

theorem string_length_pos {s : String} : 0 < s.length ↔ s ≠ "" := by
  cases s with
  | mk data =>
    cases data with
    | nil => simp [String.length]
    | cons c t =>
      simp only [String.length, List.length_cons]
      constructor
      · intro _ h
        exact absurd (congrArg String.data h) (by simp)
      · intro _
        exact Nat.succ_pos _

theorem registerUser_ok_elim {s s' : RegistryState} {sender : Addr}
    {userId : String} (h : registerUser s sender userId = .ok s') :
    byteLen userId ≠ 0 ∧ byteLen userId ≤ 50 ∧ s.userIds sender = "" ∧
    s.userIdToWallet userId = 0 ∧
    s'.userIds = (fun a => if a = sender then userId else s.userIds a) ∧
    s'.userFiles = s.userFiles ∧
    s'.userIdToWallet = (fun u => if u = userId then sender else s.userIdToWallet u) := by
  unfold registerUser at h
  split_ifs at h with h1 h2 h3 h4
  injection h with h
  subst h
  refine ⟨h1, Nat.le_of_not_lt h2, byteLen_eq_zero.mp (not_ne_iff.mp h3),
    not_ne_iff.mp h4, rfl, rfl, rfl⟩

theorem uploadFile_ok_elim {s s' : RegistryState} {sender : Addr}
    {userId cid name : String} {ts : Nat}
    (h : uploadFile s sender userId cid name ts = .ok s') :
    s.userIds sender = userId ∧ byteLen cid ≠ 0 ∧ byteLen name ≠ 0 ∧
    s'.userIds = s.userIds ∧
    s'.userIdToWallet = s.userIdToWallet ∧
    s'.userFiles = (fun u =>
      if u = userId then s.userFiles userId ++ [⟨cid, name, ts⟩]
      else s.userFiles u) := by
  unfold uploadFile at h
  split_ifs at h with h1 h2 h3
  injection h with h
  subst h
  exact ⟨not_ne_iff.mp h1, h2, h3, rfl, rfl, rfl⟩

theorem deleteFile_ok_elim {s s' : RegistryState} {sender : Addr}
    {userId : String} {index : Nat}
    (h : deleteFile s sender userId index = .ok s') :
    s.userIds sender = userId ∧ index < (s.userFiles userId).length ∧
    s'.userIds = s.userIds ∧
    s'.userIdToWallet = s.userIdToWallet ∧
    s'.userFiles = (fun u =>
      if u = userId then
        ((s.userFiles userId).set index
          ((s.userFiles userId).getD ((s.userFiles userId).length - 1) dummyFile)).dropLast
      else s.userFiles u) := by
  unfold deleteFile at h
  dsimp only at h
  split_ifs at h with h1 h2
  injection h with h
  subst h
  exact ⟨not_ne_iff.mp h1, h2, rfl, rfl, rfl⟩

theorem regInv_initial : RegInv initialState := by
  refine ⟨rfl, rfl, ?_, ?_, ?_⟩
  · intro w hw
    exact absurd rfl hw
  · intro h hh
    exact absurd rfl hh
  · intro h _ _
    rfl

theorem regInv_reachable {s : RegistryState} (hs : Reachable s) : RegInv s := by
  induction hs with
  | init => exact regInv_initial
  | @register s s' sender userId hs hsender hok ih =>
    obtain ⟨hne, _, hemp, htaken, hids, hfiles, hwallet⟩ := registerUser_ok_elim hok
    have huid : userId ≠ "" := fun h => hne (byteLen_eq_zero.mpr h)
    have h0s : (0 : Addr) ≠ sender := fun h => hsender h.symm
    refine ⟨?_, ?_, ?_, ?_, ?_⟩
    · simp only [hids, if_neg h0s]
      exact ih.zeroAddr
    · simp only [hwallet, if_neg (Ne.symm huid)]
      exact ih.emptyHandle
    · intro w hw
      simp only [hids] at hw ⊢
      simp only [hwallet]
      by_cases hws : w = sender
      · simp only [if_pos hws, if_pos rfl]
        exact hws.symm
      · simp only [if_neg hws] at hw ⊢
        have hnu : s.userIds w ≠ userId := by
          intro he
          have hf := ih.forward w hw
          rw [he, htaken] at hf
          subst hf
          exact hw ih.zeroAddr
        simp only [if_neg hnu]
        exact ih.forward w hw
    · intro h hh
      simp only [hwallet] at hh ⊢
      simp only [hids]
      by_cases hhu : h = userId
      · simp only [if_pos hhu, if_pos rfl]
        exact hhu.symm
      · simp only [if_neg hhu] at hh ⊢
        have hns : s.userIdToWallet h ≠ sender := by
          intro he
          have hb := ih.backward h hh
          rw [he, hemp] at hb
          subst hb
          exact hh ih.emptyHandle
        simp only [if_neg hns]
        exact ih.backward h hh
    · intro h hne0 hw0
      simp only [hfiles]
      simp only [hwallet] at hw0
      by_cases hhu : h = userId
      · rw [if_pos hhu] at hw0
        exact absurd hw0 hsender
      · rw [if_neg hhu] at hw0
        exact ih.filesEmpty h hne0 hw0
  | @upload s s' sender userId cid name ts hs hsender hok ih =>
    obtain ⟨hown, _, _, hids, hwallet, hfiles⟩ := uploadFile_ok_elim hok
    refine ⟨?_, ?_, ?_, ?_, ?_⟩
    · rw [hids]; exact ih.zeroAddr
    · rw [hwallet]; exact ih.emptyHandle
    · intro w hw
      rw [hids] at hw ⊢
      rw [hwallet]
      exact ih.forward w hw
    · intro h hh
      rw [hwallet] at hh ⊢
      rw [hids]
      exact ih.backward h hh
    · intro h hne0 hw0
      simp only [hfiles]
      rw [hwallet] at hw0
      by_cases hhu : h = userId
      · exfalso
        have hse : s.userIds sender ≠ "" := by rw [hown, ← hhu]; exact hne0
        have := ih.forward sender hse
        rw [hown, ← hhu, hw0] at this
        exact hsender this.symm
      · simp only [if_neg hhu]
        exact ih.filesEmpty h hne0 hw0
  | @delete s s' sender userId index hs hsender hok ih =>
    obtain ⟨hown, _, hids, hwallet, hfiles⟩ := deleteFile_ok_elim hok
    refine ⟨?_, ?_, ?_, ?_, ?_⟩
    · rw [hids]; exact ih.zeroAddr
    · rw [hwallet]; exact ih.emptyHandle
    · intro w hw
      rw [hids] at hw ⊢
      rw [hwallet]
      exact ih.forward w hw
    · intro h hh
      rw [hwallet] at hh ⊢
      rw [hids]
      exact ih.backward h hh
    · intro h hne0 hw0
      simp only [hfiles]
      rw [hwallet] at hw0
      by_cases hhu : h = userId
      · exfalso
        have hse : s.userIds sender ≠ "" := by rw [hown, ← hhu]; exact hne0
        have := ih.forward sender hse
        rw [hown, ← hhu, hw0] at this
        exact hsender this.symm
      · simp only [if_neg hhu]
        exact ih.filesEmpty h hne0 hw0

theorem getD_dropLast {α : Type} (l : List α) (j : Nat) (d : α)
    (h : j < l.length - 1) : l.dropLast.getD j d = l.getD j d := by
  have h1 : j < l.dropLast.length := by rw [List.length_dropLast]; exact h
  have h2 : j < l.length := Nat.lt_of_lt_of_le h (Nat.sub_le _ _)
  rw [List.getD_eq_getElem _ _ h1, List.getD_eq_getElem _ _ h2]
  exact List.getElem_dropLast ..

theorem getD_set {α : Type} (l : List α) (i j : Nat) (x d : α)
    (hj : j < l.length) :
    (l.set i x).getD j d = if j = i then x else l.getD j d := by
  rw [List.getD_eq_getElem _ _ (by rw [List.length_set]; exact hj),
    List.getD_eq_getElem _ _ hj, List.getElem_set]
  split
  · simp_all
  · simp_all [Ne.symm]

/-- C1: `deleteFile(handle, index)` performs swap-and-pop removal: for an
owner-authorized call on a list of length `n` with `i < n`, the call
succeeds, the list afterwards has length `n - 1`, and every surviving slot
`j < n - 1` holds the record previously at slot `n - 1` when `j = i`
(the popped last record moved into the freed slot) and its previous record
otherwise — so deleting index 0 of `[F0, F1, F2]` yields `[F2, F1]`,
not `[F1, F2]`. -/
theorem deleteFile_swap_and_pop (s : RegistryState) (sender : Addr)
    (userId : String) (i : Nat)
    (hown : s.userIds sender = userId)
    (hi : i < (getFiles s userId).length) :
    (deleteFile s sender userId i).isOk = true ∧
    (getFiles (applyDelete s sender userId i) userId).length =
      (getFiles s userId).length - 1 ∧
    ∀ j, j < (getFiles s userId).length - 1 →
      (getFiles (applyDelete s sender userId i) userId).getD j dummyFile =
        if j = i then
          (getFiles s userId).getD ((getFiles s userId).length - 1) dummyFile
        else (getFiles s userId).getD j dummyFile := by
  have hnot : ¬(s.userIds sender ≠ userId) := not_ne_iff.mpr hown
  have hi' : i < (s.userFiles userId).length := hi
  have happ : getFiles (applyDelete s sender userId i) userId =
      ((s.userFiles userId).set i
        ((s.userFiles userId).getD ((s.userFiles userId).length - 1) dummyFile)).dropLast := by
    unfold applyDelete deleteFile
    dsimp only
    rw [if_neg hnot, if_pos hi']
    simp [getFiles]
  have hok : (deleteFile s sender userId i).isOk = true := by
    unfold deleteFile
    dsimp only
    rw [if_neg hnot, if_pos hi']
    rfl
  refine ⟨hok, ?_, ?_⟩
  · rw [happ, List.length_dropLast, List.length_set]
    rfl
  · intro j hj
    have hj2 : j < (s.userFiles userId).length - 1 := hj
    rw [happ]
    simp only [getFiles]
    have hj' : j < ((s.userFiles userId).set i
        ((s.userFiles userId).getD ((s.userFiles userId).length - 1) dummyFile)).length - 1 := by
      rw [List.length_set]; exact hj2
    rw [getD_dropLast _ _ _ hj',
      getD_set _ _ _ _ _ (Nat.lt_of_lt_of_le hj2 (Nat.sub_le _ _))]

/-- C1 witness: in `aliceThree` the handle `"alice"` holds `[F0, F1, F2]`;
deleting index 0 succeeds and leaves exactly `[F2, F1]`. -/
theorem deleteFile_swap_and_pop_witness :
    (aliceThree.userIds 1 = "alice" ∧ 0 < (getFiles aliceThree "alice").length) ∧
    ((deleteFile aliceThree 1 "alice" 0).isOk = true ∧
      (getFiles (applyDelete aliceThree 1 "alice" 0) "alice").length =
        (getFiles aliceThree "alice").length - 1 ∧
      ∀ j, j < (getFiles aliceThree "alice").length - 1 →
        (getFiles (applyDelete aliceThree 1 "alice" 0) "alice").getD j dummyFile =
          if j = 0 then
            (getFiles aliceThree "alice").getD
              ((getFiles aliceThree "alice").length - 1) dummyFile
          else (getFiles aliceThree "alice").getD j dummyFile) ∧
    getFiles aliceThree "alice" =
      [⟨"c0", "f0", 10⟩, ⟨"c1", "f1", 11⟩, ⟨"c2", "f2", 12⟩] ∧
    getFiles (applyDelete aliceThree 1 "alice" 0) "alice" =
      [⟨"c2", "f2", 12⟩, ⟨"c1", "f1", 11⟩] :=
  ⟨⟨by decide, by decide⟩,
    deleteFile_swap_and_pop aliceThree 1 "alice" 0 (by decide) (by decide),
    by decide, by decide⟩

/-- C2: `registerUser(handle)` succeeds exactly when the caller has no
existing handle, the handle is untaken, and its byte length lies in
`[1, 50]`; the checks fire in the priority order invalid length (the
`validUserId` modifier, reverting with one of the two invalid-handle
messages), then already-registered, then handle-taken; and concretely,
from a fresh deployment, a 0-byte and a 51-byte handle fail while a
2-byte and a 50-byte handle succeed. -/
theorem registerUser_checks (s : RegistryState) (sender : Addr) (h : String) :
    ((registerUser s sender h).isOk = true ↔
      (1 ≤ byteLen h ∧ byteLen h ≤ 50 ∧ s.userIds sender = "" ∧
        s.userIdToWallet h = 0)) ∧
    (byteLen h < 1 ∨ 50 < byteLen h →
      registerUser s sender h = .error .emptyUserId ∨
      registerUser s sender h = .error .userIdTooLong) ∧
    (1 ≤ byteLen h → byteLen h ≤ 50 → s.userIds sender ≠ "" →
      registerUser s sender h = .error .alreadyRegistered) ∧
    (1 ≤ byteLen h → byteLen h ≤ 50 → s.userIds sender = "" →
      s.userIdToWallet h ≠ 0 →
      registerUser s sender h = .error .userIdTaken) ∧
    (registerUser initialState 1 "").isOk = false ∧
    registerUser initialState 1 "" = .error .emptyUserId ∧
    (registerUser initialState 1 fiftyOneChars).isOk = false ∧
    registerUser initialState 1 fiftyOneChars = .error .userIdTooLong ∧
    (registerUser initialState 1 "ab").isOk = true ∧
    (registerUser initialState 1 fiftyChars).isOk = true := by
  refine ⟨?_, ?_, ?_, ?_, by decide, rfl, by decide, rfl, by decide, by decide⟩
  · constructor
    · intro hok
      cases hreg : registerUser s sender h with
      | error e =>
        rw [hreg] at hok
        simp [Except.isOk, Except.toBool] at hok
      | ok s' =>
        obtain ⟨hne, hle, hemp, hw0, _, _, _⟩ := registerUser_ok_elim hreg
        exact ⟨Nat.one_le_iff_ne_zero.mpr hne, hle, hemp, hw0⟩
    · rintro ⟨h1, h2, h3, h4⟩
      unfold registerUser
      rw [if_neg (by omega), if_neg (not_lt.mpr h2),
        if_neg (not_ne_iff.mpr (byteLen_eq_zero.mpr h3)),
        if_neg (not_ne_iff.mpr h4)]
      rfl
  · intro hbad
    unfold registerUser
    rcases hbad with h1 | h2
    · rw [if_pos (by omega)]
      exact Or.inl rfl
    · rw [if_neg (by omega), if_pos h2]
      exact Or.inr rfl
  · intro h1 h2 h3
    unfold registerUser
    rw [if_neg (by omega), if_neg (not_lt.mpr h2),
      if_pos (fun he => h3 (byteLen_eq_zero.mp he))]
  · intro h1 h2 h3 h4
    unfold registerUser
    rw [if_neg (by omega), if_neg (not_lt.mpr h2),
      if_neg (not_ne_iff.mpr (byteLen_eq_zero.mpr h3)), if_pos h4]

/-- C2 witness: with `"alice"` already registered by wallet 1, a second
registration attempt by wallet 1 (valid-length handle `"bob"`) fails with
the already-registered error, exercising the check-priority conjunct. -/
theorem registerUser_checks_witness :
    (1 ≤ byteLen "bob" ∧ byteLen "bob" ≤ 50 ∧
      (applyRegister initialState 1 "alice").userIds 1 ≠ "") ∧
    registerUser (applyRegister initialState 1 "alice") 1 "bob" =
      .error .alreadyRegistered :=
  ⟨⟨by decide, by decide, by decide⟩,
    (registerUser_checks (applyRegister initialState 1 "alice") 1 "bob").2.2.1
      (by decide) (by decide) (by decide)⟩

/-- C3: in every reachable ledger state the identity/handle mappings form a
partial bijection: two identities bound to the same (nonempty) handle
coincide, a registered pair satisfies both lookup directions
simultaneously (`userIdToWallet (userIds w) = w` and
`userIds (userIdToWallet h) = h`), and no successful operation mutates or
deletes an existing binding (`registerUser` only writes the caller's fresh
binding; `uploadFile` and `deleteFile` leave both mappings untouched). -/
theorem identity_handle_bijection (s : RegistryState) (hs : Reachable s) :
    (∀ w1 w2 : Addr, s.userIds w1 ≠ "" → s.userIds w1 = s.userIds w2 →
      w1 = w2) ∧
    (∀ w : Addr, s.userIds w ≠ "" → s.userIdToWallet (s.userIds w) = w) ∧
    (∀ h : String, s.userIdToWallet h ≠ 0 →
      s.userIds (s.userIdToWallet h) = h) ∧
    (∀ (sender : Addr) (uid : String) (s' : RegistryState),
      registerUser s sender uid = .ok s' →
      (∀ w, s.userIds w ≠ "" → s'.userIds w = s.userIds w) ∧
      (∀ h, s.userIdToWallet h ≠ 0 → s'.userIdToWallet h = s.userIdToWallet h)) ∧
    (∀ (sender : Addr) (uid cid name : String) (ts : Nat) (s' : RegistryState),
      uploadFile s sender uid cid name ts = .ok s' →
      s'.userIds = s.userIds ∧ s'.userIdToWallet = s.userIdToWallet) ∧
    (∀ (sender : Addr) (uid : String) (i : Nat) (s' : RegistryState),
      deleteFile s sender uid i = .ok s' →
      s'.userIds = s.userIds ∧ s'.userIdToWallet = s.userIdToWallet) := by
  have inv := regInv_reachable hs
  refine ⟨?_, inv.forward, inv.backward, ?_, ?_, ?_⟩
  · intro w1 w2 h1 h12
    have e1 := inv.forward w1 h1
    have e2 := inv.forward w2 (h12 ▸ h1)
    rw [h12] at e1
    rw [e1] at e2
    exact e2
  · intro sender uid s' hok
    obtain ⟨hne, _, hemp, htaken, hids, _, hwallet⟩ := registerUser_ok_elim hok
    constructor
    · intro w hw
      simp only [hids]
      rw [if_neg]
      intro he
      subst he
      exact hw hemp
    · intro h hh
      simp only [hwallet]
      rw [if_neg]
      intro he
      subst he
      exact hh htaken
  · intro sender uid cid name ts s' hok
    obtain ⟨_, _, _, hids, hwallet, _⟩ := uploadFile_ok_elim hok
    exact ⟨hids, hwallet⟩
  · intro sender uid i s' hok
    obtain ⟨_, _, hids, hwallet, _⟩ := deleteFile_ok_elim hok
    exact ⟨hids, hwallet⟩

/-- C3 witness: the state with `"alice"` registered to wallet 1 is
reachable, and there both lookup directions agree on the registered
pair. -/
theorem identity_handle_bijection_witness :
    (applyRegister initialState 1 "alice").userIds 1 ≠ "" ∧
    (applyRegister initialState 1 "alice").userIdToWallet
      ((applyRegister initialState 1 "alice").userIds 1) = 1 :=
  ⟨by decide,
    (identity_handle_bijection (applyRegister initialState 1 "alice")
      (@Reachable.register initialState (applyRegister initialState 1 "alice")
        1 "alice" Reachable.init (by decide) rfl)).2.1 1 (by decide)⟩

/-- C7: failed ledger operations are atomic. A `require` failure reverts
the transaction, so whenever `registerUser`, `uploadFile` or `deleteFile`
rejects, the committed state equals the pre-state; in particular
`deleteFile` called by an identity whose bound handle differs from the
target handle fails with the authorization error and leaves the handle's
file list exactly as it was. -/
theorem failed_ops_atomic (s : RegistryState) (sender : Addr)
    (userId cid name : String) (ts i : Nat) :
    ((registerUser s sender userId).isOk = false →
      applyRegister s sender userId = s) ∧
    ((uploadFile s sender userId cid name ts).isOk = false →
      applyUpload s sender userId cid name ts = s) ∧
    ((deleteFile s sender userId i).isOk = false →
      applyDelete s sender userId i = s) ∧
    (s.userIds sender ≠ userId →
      deleteFile s sender userId i = .error .notAuthorized ∧
      getFiles (applyDelete s sender userId i) userId = getFiles s userId) := by
  refine ⟨?_, ?_, ?_, ?_⟩
  · intro hfail
    unfold applyRegister
    cases hreg : registerUser s sender userId with
    | ok s' =>
      rw [hreg] at hfail
      simp [Except.isOk, Except.toBool] at hfail
    | error e => rfl
  · intro hfail
    unfold applyUpload
    cases hup : uploadFile s sender userId cid name ts with
    | ok s' =>
      rw [hup] at hfail
      simp [Except.isOk, Except.toBool] at hfail
    | error e => rfl
  · intro hfail
    unfold applyDelete
    cases hdel : deleteFile s sender userId i with
    | ok s' =>
      rw [hdel] at hfail
      simp [Except.isOk, Except.toBool] at hfail
    | error e => rfl
  · intro hne
    have hdel : deleteFile s sender userId i = .error .notAuthorized := by
      unfold deleteFile
      rw [if_pos hne]
    refine ⟨hdel, ?_⟩
    unfold applyDelete
    rw [hdel]

/-- C7 witness: wallet 2 does not own `"alice"` in `aliceOne`, so its
`deleteFile` call returns the authorization error and the committed state
keeps the file list intact. -/
theorem failed_ops_atomic_witness :
    aliceOne.userIds 2 ≠ "alice" ∧
    (deleteFile aliceOne 2 "alice" 0 = .error .notAuthorized ∧
      getFiles (applyDelete aliceOne 2 "alice" 0) "alice" =
        getFiles aliceOne "alice") ∧
    getFiles aliceOne "alice" = [⟨"c0", "f0", 10⟩] :=
  ⟨by decide,
    (failed_ops_atomic aliceOne 2 "alice" "" "" 0 0).2.2.2 (by decide),
    by decide⟩

/-- C8: the pure reads return sentinel values, never errors, for unknown
keys: in every reachable state an unregistered nonempty handle has
`getFiles = []` and `getFileCount = 0`, a handle bound to no identity
resolves to the zero address, an identity bound to no handle resolves to
the empty string, and on a fresh deployment every read returns its
sentinel. -/
theorem reads_return_sentinels (s : RegistryState) (hs : Reachable s)
    (h : String) (w : Addr) :
    (h ≠ "" → s.userIdToWallet h = 0 →
      getFiles s h = [] ∧ getFileCount s h = 0) ∧
    ((∀ w' : Addr, s.userIds w' ≠ h) → getWalletByUserId s h = 0) ∧
    ((∀ h' : String, s.userIdToWallet h' ≠ w) → getUserId s w = "") ∧
    (getFiles initialState h = [] ∧ getFileCount initialState h = 0 ∧
      getUserId initialState w = "" ∧ getWalletByUserId initialState h = 0) := by
  have inv := regInv_reachable hs
  refine ⟨?_, ?_, ?_, rfl, rfl, rfl, rfl⟩
  · intro hne hw0
    have := inv.filesEmpty h hne hw0
    exact ⟨this, by simp [getFileCount, this]⟩
  · intro hnone
    by_contra hW
    have hb := inv.backward h hW
    exact hnone _ hb
  · intro hnone
    by_contra hU
    have hf := inv.forward w hU
    exact hnone _ hf

/-- C8 witness: in the reachable state `aliceOne` the never-registered
handle `"bob"` reads back as an empty list with count 0. -/
theorem reads_return_sentinels_witness :
    (("bob" : String) ≠ "" ∧ aliceOne.userIdToWallet "bob" = 0) ∧
    (getFiles aliceOne "bob" = [] ∧ getFileCount aliceOne "bob" = 0) :=
  ⟨⟨by decide, by decide⟩,
    (reads_return_sentinels aliceOne
      (@Reachable.upload (applyRegister initialState 1 "alice") aliceOne
        1 "alice" "c0" "f0" 10
        (@Reachable.register initialState (applyRegister initialState 1 "alice")
          1 "alice" Reachable.init (by decide) rfl)
        (by decide) rfl)
      "bob" 3).1 (by decide) (by decide)⟩

theorem listLeads_refl (l : List Char) : listLeads l l = true := by
  induction l with
  | nil => rfl
  | cons c t ih => simp [listLeads, ih]

theorem listIncl_nil (l : List Char) : listIncl l [] = true := by
  cases l with
  | nil => rfl
  | cons c t => simp [listIncl, listLeads]

theorem listIncl_suffix (a b : List Char) : listIncl (a ++ b) b = true := by
  induction a with
  | nil =>
    cases b with
    | nil => rfl
    | cons c t => simp [listIncl, listLeads_refl]
  | cons x a' ih => simp [listIncl, ih]

theorem strIncludes_suffix (x y : String) : strIncludes (x ++ y) y = true := by
  unfold strIncludes
  have : (x ++ y).toList = x.toList ++ y.toList := by
    cases x with
    | mk xd =>
      cases y with
      | mk yd => rfl
  rw [this]
  exact listIncl_suffix _ _

theorem strIncludes_empty (x : String) : strIncludes x "" = true :=
  listIncl_nil _

section DownloadLemmas

open IpfsClient

theorem fetchOutcome_fail_exists {o : FetchOutcome} (h : o.isFail = true) :
    ∃ m, o = .failure m := by
  cases o with
  | success b => simp [FetchOutcome.isFail] at h
  | failure m => exact ⟨m, rfl⟩

theorem tryGateways_first_success (fetch : FetchOracle) (name : String)
    (pre : List String) (u : String) (post : List String) (body : List Nat)
    (lastErr : Option String) (tried : List (String × Nat))
    (hpre : ∀ v ∈ pre, (fetch v GATEWAY_TIMEOUT).isFail = true)
    (hu : fetch u GATEWAY_TIMEOUT = .success body) :
    tryGateways fetch name (pre ++ u :: post) lastErr tried =
      ⟨.saved name body,
        tried ++ (pre ++ [u]).map (fun v => (v, GATEWAY_TIMEOUT))⟩ := by
  induction pre generalizing lastErr tried with
  | nil =>
    simp only [List.nil_append, List.map_cons, List.map_nil]
    unfold tryGateways
    rw [hu]
  | cons v pre' ih =>
    obtain ⟨m, hm⟩ := fetchOutcome_fail_exists (hpre v (by simp))
    have hrest : ∀ w ∈ pre', (fetch w GATEWAY_TIMEOUT).isFail = true :=
      fun w hw => hpre w (by simp [hw])
    simp only [List.cons_append]
    unfold tryGateways
    rw [hm]
    dsimp only
    rw [ih _ _ hrest]
    simp [List.append_assoc]

theorem tryGateways_attempts_extends (fetch : FetchOracle) (name : String)
    (urls : List String) (lastErr : Option String)
    (tried : List (String × Nat)) :
    ∃ rest, (tryGateways fetch name urls lastErr tried).attempts =
      tried ++ rest := by
  induction urls generalizing lastErr tried with
  | nil => exact ⟨[], by simp [tryGateways]⟩
  | cons u rest' ih =>
    unfold tryGateways
    cases hfu : fetch u GATEWAY_TIMEOUT with
    | success body => exact ⟨[(u, GATEWAY_TIMEOUT)], rfl⟩
    | failure m =>
      obtain ⟨r, hr⟩ := ih (some m) (tried ++ [(u, GATEWAY_TIMEOUT)])
      exact ⟨(u, GATEWAY_TIMEOUT) :: r, by rw [hr]; simp⟩

theorem tryGateways_all_fail (fetch : FetchOracle) (name : String)
    (urls : List String) (lastErr : Option String)
    (tried : List (String × Nat))
    (hfail : ∀ v ∈ urls, (fetch v GATEWAY_TIMEOUT).isFail = true) :
    (tryGateways fetch name urls lastErr tried).attempts =
      tried ++ urls.map (fun v => (v, GATEWAY_TIMEOUT)) ∧
    ∀ ulast m, urls.getLast? = some ulast →
      fetch ulast GATEWAY_TIMEOUT = .failure m →
      (tryGateways fetch name urls lastErr tried).result =
        .failed (aggregateMsg (some m)) := by
  induction urls generalizing lastErr tried with
  | nil =>
    refine ⟨by simp [tryGateways], ?_⟩
    intro ulast m h
    simp at h
  | cons u rest' ih =>
    obtain ⟨m0, hm0⟩ := fetchOutcome_fail_exists (hfail u (by simp))
    have hrest : ∀ w ∈ rest', (fetch w GATEWAY_TIMEOUT).isFail = true :=
      fun w hw => hfail w (by simp [hw])
    obtain ⟨iha, ihr⟩ := ih (some m0) (tried ++ [(u, GATEWAY_TIMEOUT)]) hrest
    constructor
    · unfold tryGateways
      rw [hm0]
      dsimp only
      rw [iha]
      simp
    · intro ulast m hlast hfl
      unfold tryGateways
      rw [hm0]
      dsimp only
      cases rest' with
      | nil =>
        simp at hlast
        subst hlast
        rw [hfl] at hm0
        injection hm0 with hmm
        subst hmm
        simp [tryGateways]
      | cons w rest'' =>
        rw [List.getLast?_cons_cons] at hlast
        exact ihr ulast m hlast hfl

theorem tryGateways_failed_all (fetch : FetchOracle) (name : String)
    (urls : List String) (lastErr : Option String)
    (tried : List (String × Nat))
    (h : (tryGateways fetch name urls lastErr tried).result.isFailed = true) :
    (tryGateways fetch name urls lastErr tried).attempts =
      tried ++ urls.map (fun v => (v, GATEWAY_TIMEOUT)) ∧
    ∀ v ∈ urls, (fetch v GATEWAY_TIMEOUT).isFail = true := by
  induction urls generalizing lastErr tried with
  | nil => exact ⟨by simp [tryGateways], by simp⟩
  | cons u rest' ih =>
    unfold tryGateways at h ⊢
    cases hfu : fetch u GATEWAY_TIMEOUT with
    | success body =>
      rw [hfu] at h
      simp [DownloadResult.isFailed] at h
    | failure m =>
      rw [hfu] at h
      obtain ⟨iha, ihf⟩ := ih (some m) (tried ++ [(u, GATEWAY_TIMEOUT)]) h
      refine ⟨by rw [iha]; simp, ?_⟩
      intro v hv
      rcases List.mem_cons.mp hv with hv | hv
      · subst hv
        rw [hfu]
        rfl
      · exact ihf v hv

theorem tryGateways_head (fetch : FetchOracle) (name u : String)
    (rest : List String) (lastErr : Option String) :
    (tryGateways fetch name (u :: rest) lastErr []).attempts.head? =
      some (u, GATEWAY_TIMEOUT) := by
  unfold tryGateways
  cases hfu : fetch u GATEWAY_TIMEOUT with
  | success body => rfl
  | failure m =>
    dsimp only
    obtain ⟨r, hr⟩ :=
      tryGateways_attempts_extends fetch name rest (some m) [(u, GATEWAY_TIMEOUT)]
    rw [List.nil_append, hr]
    rfl

/-- C4: `downloadFromIpfs` builds its candidate list headed by the
configured primary gateway with duplicates of the primary filtered out of
the fixed fallback list, bounds every fetch by the fixed 15000 ms timeout,
walks the resource URLs strictly in order, and on the first HTTP-success
saves the body under the suggested file name and returns at once: if every
URL in `pre` fails and `u` succeeds, exactly `pre ++ [u]` is attempted and
nothing after `u`. -/
theorem downloadFromIpfs_short_circuit (cfg : Config) (cid fileName : JSVal)
    (fetch : FetchOracle) (pre : List String) (u : String)
    (post : List String) (body : List Nat)
    (hurls : urlsOf cfg cid fileName = pre ++ u :: post)
    (hpre : ∀ v ∈ pre, (fetch v GATEWAY_TIMEOUT).isFail = true)
    (hu : fetch u GATEWAY_TIMEOUT = .success body) :
    GATEWAY_TIMEOUT = 15000 ∧
    (gatewayCandidates cfg).head? = some (primaryGateway cfg) ∧
    (gatewayCandidates cfg).count (primaryGateway cfg) = 1 ∧
    downloadFromIpfs cfg cid fileName fetch =
      ⟨.saved (jsOr fileName "") body,
        (pre ++ [u]).map (fun v => (v, GATEWAY_TIMEOUT))⟩ := by
  refine ⟨rfl, rfl, ?_, ?_⟩
  · have hnot : primaryGateway cfg ∉
        FALLBACK_GATEWAYS.filter (fun g => g ≠ primaryGateway cfg) := by
      intro hmem
      have := (List.mem_filter.mp hmem).2
      simp at this
    show (primaryGateway cfg ::
      FALLBACK_GATEWAYS.filter (fun g => g ≠ primaryGateway cfg)).count
        (primaryGateway cfg) = 1
    rw [List.count_cons_self, List.count_eq_zero.mpr hnot]
  · unfold downloadFromIpfs
    rw [hurls, tryGateways_first_success fetch _ pre u post body none [] hpre hu]
    simp

/-- C4 witness: with the shipped config and a network where the first two
gateway URLs fail and the third succeeds, the download saves the third
gateway's bytes under the suggested name after exactly three attempts. -/
theorem downloadFromIpfs_short_circuit_witness :
    (urlsOf appConfig (.str "QmTest") (.str "file.txt") =
      ["https://ipfs.io/ipfs/QmTest?filename=file.txt",
       "https://gateway.pinata.cloud/ipfs/QmTest?filename=file.txt"] ++
      "https://cloudflare-ipfs.com/ipfs/QmTest?filename=file.txt" ::
      ["https://dweb.link/ipfs/QmTest?filename=file.txt",
       "https://w3s.link/ipfs/QmTest?filename=file.txt"] ∧
     (∀ v ∈ ["https://ipfs.io/ipfs/QmTest?filename=file.txt",
             "https://gateway.pinata.cloud/ipfs/QmTest?filename=file.txt"],
       (thirdOkOracle v GATEWAY_TIMEOUT).isFail = true) ∧
     thirdOkOracle "https://cloudflare-ipfs.com/ipfs/QmTest?filename=file.txt"
       GATEWAY_TIMEOUT = .success [7, 7]) ∧
    downloadFromIpfs appConfig (.str "QmTest") (.str "file.txt") thirdOkOracle =
      ⟨.saved "file.txt" [7, 7],
        [("https://ipfs.io/ipfs/QmTest?filename=file.txt", 15000),
         ("https://gateway.pinata.cloud/ipfs/QmTest?filename=file.txt", 15000),
         ("https://cloudflare-ipfs.com/ipfs/QmTest?filename=file.txt", 15000)]⟩ :=
  ⟨⟨by decide, by decide, by decide⟩,
    (downloadFromIpfs_short_circuit appConfig (.str "QmTest") (.str "file.txt")
      thirdOkOracle
      ["https://ipfs.io/ipfs/QmTest?filename=file.txt",
       "https://gateway.pinata.cloud/ipfs/QmTest?filename=file.txt"]
      "https://cloudflare-ipfs.com/ipfs/QmTest?filename=file.txt"
      ["https://dweb.link/ipfs/QmTest?filename=file.txt",
       "https://w3s.link/ipfs/QmTest?filename=file.txt"]
      [7, 7] (by decide) (by decide) (by decide)).2.2.2⟩

/-- C5: when every candidate URL fails, `downloadFromIpfs` rejects with the
aggregate error whose message contains the last underlying failure's
message, after attempting every candidate; and it only rejects in that
situation — a rejected run always attempted the whole candidate list, with
every attempt failing (no untried candidate remains). -/
theorem downloadFromIpfs_all_gateways_fail (cfg : Config)
    (cid fileName : JSVal) (fetch : FetchOracle) :
    ((∀ v ∈ urlsOf cfg cid fileName, (fetch v GATEWAY_TIMEOUT).isFail = true) →
      ∀ ulast m, (urlsOf cfg cid fileName).getLast? = some ulast →
        fetch ulast GATEWAY_TIMEOUT = .failure m →
        (downloadFromIpfs cfg cid fileName fetch).result =
          .failed (aggregateMsg (some m)) ∧
        (downloadFromIpfs cfg cid fileName fetch).attempts =
          (urlsOf cfg cid fileName).map (fun v => (v, GATEWAY_TIMEOUT)) ∧
        strIncludes (aggregateMsg (some m)) m = true) ∧
    ((downloadFromIpfs cfg cid fileName fetch).result.isFailed = true →
      (downloadFromIpfs cfg cid fileName fetch).attempts =
        (urlsOf cfg cid fileName).map (fun v => (v, GATEWAY_TIMEOUT)) ∧
      ∀ v ∈ urlsOf cfg cid fileName, (fetch v GATEWAY_TIMEOUT).isFail = true) := by
  constructor
  · intro hfail ulast m hlast hfl
    obtain ⟨ha, hr⟩ := tryGateways_all_fail fetch (jsOr fileName "")
      (urlsOf cfg cid fileName) none [] hfail
    refine ⟨?_, ?_, ?_⟩
    · exact hr ulast m hlast hfl
    · unfold downloadFromIpfs
      rw [ha]
      simp
    · unfold aggregateMsg lastErrText
      dsimp only
      by_cases hm : m = ""
      · subst hm
        exact strIncludes_empty _
      · rw [if_neg hm]
        exact strIncludes_suffix _ _
  · intro hfailed
    obtain ⟨ha, hf⟩ := tryGateways_failed_all fetch (jsOr fileName "")
      (urlsOf cfg cid fileName) none [] hfailed
    exact ⟨by unfold downloadFromIpfs; rw [ha]; simp, hf⟩

/-- C5 witness: with the shipped config and every fetch failing with
`HTTP 500`, the download rejects with the aggregate message carrying that
last failure text, after attempting all five candidates. -/
theorem downloadFromIpfs_all_gateways_fail_witness :
    ((∀ v ∈ urlsOf appConfig (.str "QmTest") (.str "f.txt"),
        (allFailOracle v GATEWAY_TIMEOUT).isFail = true) ∧
      (urlsOf appConfig (.str "QmTest") (.str "f.txt")).getLast? =
        some "https://w3s.link/ipfs/QmTest?filename=f.txt" ∧
      allFailOracle "https://w3s.link/ipfs/QmTest?filename=f.txt"
        GATEWAY_TIMEOUT = .failure "HTTP 500: Internal Server Error") ∧
    ((downloadFromIpfs appConfig (.str "QmTest") (.str "f.txt")
        allFailOracle).result =
      .failed (aggregateMsg (some "HTTP 500: Internal Server Error")) ∧
     (downloadFromIpfs appConfig (.str "QmTest") (.str "f.txt")
        allFailOracle).attempts =
      (urlsOf appConfig (.str "QmTest") (.str "f.txt")).map
        (fun v => (v, GATEWAY_TIMEOUT)) ∧
     strIncludes (aggregateMsg (some "HTTP 500: Internal Server Error"))
       "HTTP 500: Internal Server Error" = true) :=
  ⟨⟨by decide, by decide, by decide⟩,
    (downloadFromIpfs_all_gateways_fail appConfig (.str "QmTest")
      (.str "f.txt") allFailOracle).1 (by decide)
      "https://w3s.link/ipfs/QmTest?filename=f.txt"
      "HTTP 500: Internal Server Error" (by decide) (by decide)⟩

/-- C10: `downloadFromIpfs` never validates its `cid` argument: `null`,
`undefined` and the empty string all coerce to the empty URL-encoded
string, the run is identical to the empty-string run, and the loop still
issues its first network attempt against the primary gateway (the attempt
list is nonempty) instead of failing fast with any validation error. -/
theorem downloadFromIpfs_no_cid_validation (cfg : Config) (fileName : JSVal)
    (fetch : FetchOracle) (cid : JSVal)
    (hfalsy : cid = .null ∨ cid = .undefined ∨ cid = .str "") :
    safeCidOf cid = "" ∧
    downloadFromIpfs cfg cid fileName fetch =
      downloadFromIpfs cfg (.str "") fileName fetch ∧
    (downloadFromIpfs cfg cid fileName fetch).attempts.head? =
      some (primaryGateway cfg ++ "/" ++ "" ++ fileParamOf fileName,
        GATEWAY_TIMEOUT) ∧
    (downloadFromIpfs cfg cid fileName fetch).attempts ≠ [] := by
  have hmain : ∀ (c : JSVal), safeCidOf c = "" →
      downloadFromIpfs cfg c fileName fetch =
        downloadFromIpfs cfg (.str "") fileName fetch ∧
      (downloadFromIpfs cfg c fileName fetch).attempts.head? =
        some (primaryGateway cfg ++ "/" ++ "" ++ fileParamOf fileName,
          GATEWAY_TIMEOUT) := by
    intro c hc
    have hurls : urlsOf cfg c fileName =
        (primaryGateway cfg ++ "/" ++ "" ++ fileParamOf fileName) ::
          (FALLBACK_GATEWAYS.filter (fun g => g ≠ primaryGateway cfg)).map
            (fun g => g ++ "/" ++ "" ++ fileParamOf fileName) := by
      unfold urlsOf gatewayCandidates
      rw [List.map_cons, hc]
    constructor
    · unfold downloadFromIpfs
      have hcs : safeCidOf (.str "") = "" := rfl
      have : urlsOf cfg c fileName = urlsOf cfg (.str "") fileName := by
        unfold urlsOf
        rw [hc]
        rfl
      rw [this]
    · unfold downloadFromIpfs
      rw [hurls]
      exact tryGateways_head fetch _ _ _ none
  rcases hfalsy with h | h | h <;> subst h
  · exact ⟨rfl, (hmain .null rfl).1, (hmain .null rfl).2, by
      intro he
      have := (hmain .null rfl).2
      rw [he] at this
      simp at this⟩
  · exact ⟨rfl, (hmain .undefined rfl).1, (hmain .undefined rfl).2, by
      intro he
      have := (hmain .undefined rfl).2
      rw [he] at this
      simp at this⟩
  · exact ⟨rfl, (hmain (.str "") rfl).1, (hmain (.str "") rfl).2, by
      intro he
      have := (hmain (.str "") rfl).2
      rw [he] at this
      simp at this⟩

/-- C10 witness: a `null` content id with the shipped config still opens
the gateway loop: the first attempt targets the primary gateway with an
empty encoded cid. -/
theorem downloadFromIpfs_no_cid_validation_witness :
    (JSVal.null = JSVal.null ∨ JSVal.null = JSVal.undefined ∨
      JSVal.null = JSVal.str "") ∧
    (safeCidOf .null = "" ∧
      (downloadFromIpfs appConfig .null (.str "f") allFailOracle).attempts.head? =
        some ("https://ipfs.io/ipfs" ++ "/" ++ "" ++
          fileParamOf (.str "f"), GATEWAY_TIMEOUT)) :=
  ⟨Or.inl rfl,
    ⟨(downloadFromIpfs_no_cid_validation appConfig (.str "f") allFailOracle
        .null (Or.inl rfl)).1,
      (downloadFromIpfs_no_cid_validation appConfig (.str "f") allFailOracle
        .null (Or.inl rfl)).2.2.1⟩⟩

/-- C6 counterexample: a type-validation failure is not always surfaced as
a validation error. With a nonempty allow-list `["application/pdf"]` and a
file whose declared type is the string `"fetch"` (absent from the list,
size within bounds), `uploadToIpfs` makes zero network attempts but throws
the rewritten connectivity error — because the catch block matches
`'fetch'` inside the validation message `File type fetch is not allowed` —
so the surfaced error equals the connectivity error and is not the type
validation error the claim promises. -/
theorem uploadToIpfs_hinted_type_counterexample :
    uploadToIpfs
        ⟨"https://ipfs.io/ipfs/", 10485760, ["application/pdf"], false⟩
        ⟨1000, "fetch"⟩ (.ok "QmCid") "demo" =
      ⟨.errConnect, 0⟩ ∧
    ("fetch" ∈ (["application/pdf"] : List String)) = False ∧
    UploadOutcome.errConnect ≠ .errWrapped (.typeErr "fetch") ∧
    UploadOutcome.errConnect ≠ .errWrapped .sizeErr := by
  refine ⟨by decide, by simp, by decide, by decide⟩

/-- C6 (amended): a size violation is rejected as the wrapped size
validation error with zero network attempts; a type violation is rejected
with zero network attempts, surfaced as the wrapped type validation error
except when the declared type itself contains `'fetch'` or
`'ERR_CONNECTION_REFUSED'`, in which case the catch block misreports it as
the connectivity error; and a genuine network failure whose message
carries such a hint surfaces as the distinguishable cannot-connect
error after one network attempt. -/
theorem uploadToIpfs_validation (cfg : Config) (file : JFile)
    (net : NetResult) (demoCid : String) :
    (cfg.maxFileSize ≠ 0 → cfg.maxFileSize < file.size →
      uploadToIpfs cfg file net demoCid = ⟨.errWrapped .sizeErr, 0⟩) ∧
    (∀ ft, ft = (if file.type = "" then "application/octet-stream"
        else file.type) →
      ¬(cfg.maxFileSize ≠ 0 ∧ cfg.maxFileSize < file.size) →
      0 < cfg.allowedFileTypes.length → ft ∉ cfg.allowedFileTypes →
      (uploadToIpfs cfg file net demoCid).netAttempts = 0 ∧
      (uploadToIpfs cfg file net demoCid).outcome =
        (if (RawErr.typeErr ft).hasConnHint then .errConnect
         else .errWrapped (.typeErr ft))) ∧
    (∀ m, ¬(cfg.maxFileSize ≠ 0 ∧ cfg.maxFileSize < file.size) →
      ¬(0 < cfg.allowedFileTypes.length ∧
        (if file.type = "" then "application/octet-stream" else file.type) ∉
          cfg.allowedFileTypes) →
      cfg.useDemoMode = false → net = .err m →
      (RawErr.netErr m).hasConnHint = true →
      uploadToIpfs cfg file net demoCid = ⟨.errConnect, 1⟩) := by
  refine ⟨?_, ?_, ?_⟩
  · intro hmax hsz
    unfold uploadToIpfs
    rw [if_pos ⟨hmax, hsz⟩]
    rfl
  · intro ft hft hnsz hlen hmem
    unfold uploadToIpfs
    rw [if_neg hnsz]
    dsimp only
    rw [← hft, if_pos ⟨hlen, hmem⟩]
    dsimp only
    by_cases hh : (RawErr.typeErr ft).hasConnHint
    · rw [if_pos hh, if_pos hh]
      exact ⟨rfl, rfl⟩
    · rw [if_neg hh, if_neg hh]
      exact ⟨rfl, rfl⟩
  · intro m hnsz hnty hdemo hnet hhint
    unfold uploadToIpfs
    rw [if_neg hnsz]
    dsimp only
    rw [if_neg hnty, hdemo, if_neg (by simp), hnet]
    dsimp only
    rw [if_pos hhint]
    rfl

/-- C6 witness (amended theorem): with the shipped 10 MB limit, a file
declaring 20 MB is rejected as the size validation error with zero network
attempts. -/
theorem uploadToIpfs_validation_witness :
    (appConfig.maxFileSize ≠ 0 ∧ appConfig.maxFileSize < 20971520) ∧
    uploadToIpfs appConfig ⟨20971520, "application/pdf"⟩ (.ok "QmCid")
      "demo" = ⟨.errWrapped .sizeErr, 0⟩ :=
  ⟨⟨by decide, by decide⟩,
    (uploadToIpfs_validation appConfig ⟨20971520, "application/pdf"⟩
      (.ok "QmCid") "demo").1 (by decide) (by decide)⟩

/-- C9: the registry client's `isUserRegistered` returns true exactly when
the `getUserId` lookup yields a non-empty handle string; an empty handle
or a thrown lookup error both yield false, and nothing else influences the
result. -/
theorem isUserRegistered_iff (r : ContractJs.LookupResult) :
    ContractJs.isUserRegistered r = true ↔ ∃ uid, r = .ok uid ∧ uid ≠ "" := by
  cases r with
  | error e => simp [ContractJs.isUserRegistered]
  | ok uid =>
    simp [ContractJs.isUserRegistered, string_length_pos]

/-- C9 witness: a lookup resolving to `"alice"` reports registered; one
resolving to the empty string does not. -/
theorem isUserRegistered_iff_witness :
    ContractJs.isUserRegistered (.ok "alice") = true ∧
    ¬ContractJs.isUserRegistered (.ok "") = true :=
  ⟨(isUserRegistered_iff (.ok "alice")).mpr ⟨"alice", rfl, by decide⟩,
    fun h => by
      obtain ⟨uid, he, hne⟩ := (isUserRegistered_iff (.ok "")).mp h
      injection he with he
      exact hne he.symm⟩

end DownloadLemmas

end Lemmas

end ChainCred
